import Mathlib

/-!
Verification of the event/registration business-logic core of the demo REST
backend (events controller in `app.js`, storage model in
`models/events-model.js`, schema in `models/database.js`).

Modelling conventions of the shallow embedding:
* Stored dates and "now" are integer timestamps (the value of
  `Date.prototype.getTime()` on the parsed date); `toISOString` normalization
  preserves the timestamp, so a date column is embedded as that integer.
* The whitespace class of `String.prototype.trim` and of the regex `\s` is
  embedded as the ASCII whitespace characters (space, tab, LF, CR, VT, FF).
* JavaScript values that may fail `typeof x === 'string'` checks are embedded
  by `JsField` (absent / null / non-string / an actual string); a raw date
  field is embedded by its parse outcome (`DateField`, `UpdDate`).
* SQLite row sets are Lean lists; `stmt.get` is `List.find?`, inserts append a
  row carrying the next rowid, `UPDATE ... WHERE` is a guarded `List.map`,
  `DELETE ... WHERE` a `List.filter`; `ON DELETE CASCADE` from `events` to
  `event_registrations` is applied when an event row is deleted.  `ORDER BY`
  clauses only permute result rows and are not modelled.
-/

/-- ASCII whitespace, embedding the character class trimmed by `trim()` and
matched by the regex `\s` in `sanitizeText`. -/
def isWs (c : Char) : Bool :=
  c = ' ' || c = '\t' || c = '\n' || c = '\r' || c = '\x0b' || c = '\x0c'

/-- One pass of `.replace(/\s+/g, ' ')`: every maximal whitespace run becomes a
single space.  The boolean records whether the previous character was part of a
whitespace run already replaced. -/
def collapseWs : Bool → List Char → List Char
  | _, [] => []
  | prevWs, c :: cs =>
    if isWs c then
      if prevWs then collapseWs true cs
      else ' ' :: collapseWs true cs
    else c :: collapseWs false cs

/-- `String.prototype.trim`: drop leading and trailing whitespace. -/
def trimChars (l : List Char) : List Char :=
  ((l.dropWhile isWs).reverse.dropWhile isWs).reverse

/-- Embeds `sanitizeText` applied to a string argument:
`text.trim().replace(/\s+/g, ' ')`. -/
def sanitizeStr (s : String) : String :=
  ⟨collapseWs false (trimChars s.data)⟩

/-- `String.prototype.toLowerCase`, embedded as the character-wise lowercase
map. -/
def toLowerStr (s : String) : String :=
  ⟨s.data.map Char.toLower⟩

/-- A JavaScript value as seen by `sanitizeText`: either a string or anything
else (`typeof text !== 'string'`). -/
inductive JsText
  | str (s : String)
  | nonString
deriving DecidableEq, Repr

/-- `sanitizeText`: non-strings sanitize to the empty string, strings are
trimmed and whitespace-collapsed. -/
def sanitizeText : JsText → String
  | .str s => sanitizeStr s
  | .nonString => ""

/-- First character (if any) is not whitespace. -/
def headNonWs : List Char → Bool
  | [] => true
  | c :: _ => !isWs c

/-- Last character (if any) is not whitespace. -/
def lastNonWs : List Char → Bool
  | [] => true
  | [c] => !isWs c
  | _ :: c :: cs => lastNonWs (c :: cs)

/-- Every whitespace character is a single isolated `' '`: a whitespace
character must be a space and must be followed by a non-whitespace character
(or end the list). -/
def spaced : List Char → Bool
  | [] => true
  | c :: rest => (!isWs c || (c = ' ' && headNonWs rest)) && spaced rest

/-- Row of the `events` table (`database.js`): `id` is the rowid primary key,
`date` the timestamp denoted by the stored DATETIME text, `user_id` the owning
user.  `image_url` is never written by the modelled operations. -/
structure EventRow where
  id : Nat
  title : String
  description : Option String
  address : Option String
  date : Int
  image_url : Option String
  user_id : Nat
  created_at : Int
deriving DecidableEq, Repr

/-- Row of the `event_registrations` table: UNIQUE(event_id, user_id) is
enforced by `insertRegistrationRaw` below. -/
structure RegRow where
  id : Nat
  event_id : Nat
  user_id : Nat
  registered_at : Int
deriving DecidableEq, Repr

/-- Row of the `users` table (the fields read by the modelled queries). -/
structure UserRow where
  id : Nat
  email : String
  name : String
deriving DecidableEq, Repr

/-- The database state: the three tables plus the next rowid each table would
assign.  `stmt.get` is `List.find?`, `stmt.all` keeps list order (`ORDER BY`
only permutes rows and is not modelled). -/
structure DB where
  users : List UserRow
  events : List EventRow
  regs : List RegRow
  nextEventId : Nat
  nextRegId : Nat
deriving DecidableEq, Repr

/-- The string error codes produced by `events-model.js`. -/
inductive ModelError
  | EVENT_NOT_FOUND
  | UNAUTHORIZED
  | SELF_REGISTRATION
  | ALREADY_REGISTERED
  | EVENT_PAST
  | NOT_REGISTERED
  | UPDATE_FAILED
  | DELETE_FAILED
  | UNREGISTER_FAILED
deriving DecidableEq, Repr

/-- The SQLite error codes the model layer special-cases. -/
inductive SqliteErr
  | constraintUnique
  | constraintForeignKey
deriving DecidableEq, Repr

namespace EventsModel

/-- `findEventByIdStmt.get(id)`: `SELECT * FROM events WHERE id = ?`. -/
def findById (st : DB) (id : Nat) : Option EventRow :=
  st.events.find? (fun e => e.id == id)

/-- `findRegistrationStmt.get(eventId, userId)`. -/
def findRegistration (st : DB) (eventId userId : Nat) : Option RegRow :=
  st.regs.find? (fun r => r.event_id == eventId && r.user_id == userId)

/-- `findEventsByUserIdStmt.all(userId)`: `SELECT * FROM events WHERE
user_id = ?` (the `ORDER BY date` clause is not modelled). -/
def findByUserId (st : DB) (userId : Nat) : List EventRow :=
  st.events.filter (fun e => e.user_id == userId)

/-- `registerForEventStmt.run(eventId, userId)` including the storage-enforced
UNIQUE(event_id, user_id) constraint: the insert throws
`SQLITE_CONSTRAINT_UNIQUE` if the pair is already present, otherwise appends a
row with the next rowid and the CURRENT_TIMESTAMP default. -/
def insertRegistrationRaw (st : DB) (eventId userId : Nat) (now : Int) :
    Except SqliteErr (DB × RegRow) :=
  if st.regs.any (fun r => r.event_id == eventId && r.user_id == userId) then
    .error .constraintUnique
  else
    let row : RegRow := ⟨st.nextRegId, eventId, userId, now⟩
    .ok ({ st with regs := st.regs ++ [row], nextRegId := st.nextRegId + 1 }, row)

/-- Outcome of `registerForEvent`: a typed error object or the returned
`registration` payload (`id` = lastInsertRowid, `registered_at` = `new
Date().toISOString()`, both embedded as `now`). -/
inductive RegisterResult
  | err (e : ModelError)
  | ok (reg : RegRow)
deriving DecidableEq, Repr

/-- `registerForEvent` with the pre-checks evaluated against `checkSt` and the
INSERT executed against `insertSt`: the two states coincide in a sequential
run and may differ under a concurrent interleaving (a racing insert between
the pre-check and the INSERT).  The surrounding `try/catch` maps
`SQLITE_CONSTRAINT_UNIQUE` to `ALREADY_REGISTERED` and rethrows anything else
(`Except.error`). -/
def registerForEventRace (checkSt insertSt : DB) (eventId userId : Nat) (now : Int) :
    Except SqliteErr (RegisterResult × DB) :=
  match findById checkSt eventId with
  | none => .ok (.err .EVENT_NOT_FOUND, insertSt)
  | some event =>
    if event.user_id == userId then .ok (.err .SELF_REGISTRATION, insertSt)
    else
      match findRegistration checkSt eventId userId with
      | some _ => .ok (.err .ALREADY_REGISTERED, insertSt)
      | none =>
        if event.date ≤ now then .ok (.err .EVENT_PAST, insertSt)
        else
          match insertRegistrationRaw insertSt eventId userId now with
          | .ok (st2, row) => .ok (.ok row, st2)
          | .error .constraintUnique => .ok (.err .ALREADY_REGISTERED, insertSt)
          | .error e => .error e

/-- `registerForEvent(eventId, userId)` in a sequential run: existence,
self-registration, duplicate-registration and past-date checks in that order,
then the insert (which cannot hit the UNIQUE constraint sequentially, the
duplicate pre-check having just passed). -/
def registerForEvent (st : DB) (eventId userId : Nat) (now : Int) :
    RegisterResult × DB :=
  match findById st eventId with
  | none => (.err .EVENT_NOT_FOUND, st)
  | some event =>
    if event.user_id == userId then (.err .SELF_REGISTRATION, st)
    else
      match findRegistration st eventId userId with
      | some _ => (.err .ALREADY_REGISTERED, st)
      | none =>
        if event.date ≤ now then (.err .EVENT_PAST, st)
        else
          let row : RegRow := ⟨st.nextRegId, eventId, userId, now⟩
          (.ok row, { st with regs := st.regs ++ [row], nextRegId := st.nextRegId + 1 })

/-- The four bind parameters of `updateEventStmt` after the `|| null`
coercions at its call site; `none` is the SQL NULL that makes `COALESCE` keep
the stored value. -/
structure UpdatePayload where
  title : Option String
  description : Option String
  address : Option String
  date : Option Int
deriving DecidableEq, Repr

/-- The `SET` clause of `updateEventStmt`: each column becomes
`COALESCE(param, column)`; `id`, `user_id`, `image_url` and `created_at` are
not in the `SET` list. -/
def applyCoalesce (p : UpdatePayload) (e : EventRow) : EventRow :=
  { e with
    title := p.title.getD e.title
    description := match p.description with
      | some d => some d
      | none => e.description
    address := match p.address with
      | some a => some a
      | none => e.address
    date := p.date.getD e.date }

/-- `updateEventStmt.run(..., id, userId)`: update every row matching the
`WHERE id = ? AND user_id = ?` clause and report the change count. -/
def runUpdateStmt (st : DB) (p : UpdatePayload) (id userId : Nat) : DB × Nat :=
  ({ st with
      events := st.events.map (fun e =>
        if e.id == id && e.user_id == userId then applyCoalesce p e else e) },
    st.events.countP (fun e => e.id == id && e.user_id == userId))

/-- Outcome of `updateEvent`: a typed error or `{ success: true, event:
this.findById(id) }`. -/
inductive UpdateResult
  | err (e : ModelError)
  | ok (event : Option EventRow)
deriving DecidableEq, Repr

/-- `updateEvent(id, userId, updateData)`: existence check, then ownership
check, then the coalescing UPDATE. -/
def updateEvent (st : DB) (id userId : Nat) (p : UpdatePayload) : UpdateResult × DB :=
  match findById st id with
  | none => (.err .EVENT_NOT_FOUND, st)
  | some existingEvent =>
    if existingEvent.user_id != userId then (.err .UNAUTHORIZED, st)
    else
      let (st2, changes) := runUpdateStmt st p id userId
      if changes == 0 then (.err .UPDATE_FAILED, st2)
      else (.ok (findById st2 id), st2)

/-- Outcome of `deleteEvent`. -/
inductive DeleteResult
  | err (e : ModelError)
  | ok
deriving DecidableEq, Repr

/-- `deleteEventStmt.run(id, userId)` plus the storage-level `ON DELETE
CASCADE` from `events` to `event_registrations`: when a row is deleted, the
registrations referencing that event id are deleted with it. -/
def runDeleteStmt (st : DB) (id userId : Nat) : DB × Nat :=
  let changes := st.events.countP (fun e => e.id == id && e.user_id == userId)
  ({ st with
      events := st.events.filter (fun e => !(e.id == id && e.user_id == userId))
      regs := if changes == 0 then st.regs
        else st.regs.filter (fun r => !(r.event_id == id)) },
    changes)

/-- `deleteEvent(id, userId)`: existence check, then ownership check, then the
DELETE. -/
def deleteEvent (st : DB) (id userId : Nat) : DeleteResult × DB :=
  match findById st id with
  | none => (.err .EVENT_NOT_FOUND, st)
  | some existingEvent =>
    if existingEvent.user_id != userId then (.err .UNAUTHORIZED, st)
    else
      let (st2, changes) := runDeleteStmt st id userId
      if changes == 0 then (.err .DELETE_FAILED, st2)
      else (.ok, st2)

/-- Outcome of `unregisterFromEvent`. -/
inductive UnregisterResult
  | err (e : ModelError)
  | ok
deriving DecidableEq, Repr

/-- `unregisterFromEvent(eventId, userId)`: event-existence check, then
registration-existence check, then the DELETE of the registration row. -/
def unregisterFromEvent (st : DB) (eventId userId : Nat) : UnregisterResult × DB :=
  match findById st eventId with
  | none => (.err .EVENT_NOT_FOUND, st)
  | some _ =>
    match findRegistration st eventId userId with
    | none => (.err .NOT_REGISTERED, st)
    | some _ =>
      let changes := st.regs.countP (fun r => r.event_id == eventId && r.user_id == userId)
      let st2 := { st with
        regs := st.regs.filter (fun r => !(r.event_id == eventId && r.user_id == userId)) }
      if changes == 0 then (.err .UNREGISTER_FAILED, st2)
      else (.ok, st2)

/-- `createEvent(eventData)` of the model layer: `createEventStmt.run` with
the `|| null` coercions on description and address, then
`this.findById(result.lastInsertRowid)`.  The inserted row takes the next
rowid, a NULL `image_url` and the CURRENT_TIMESTAMP default. -/
def createEvent (st : DB) (title : String) (description address : Option String)
    (date : Int) (user_id : Nat) (now : Int) : DB × Option EventRow :=
  let desc := description.bind (fun d => if d == "" then none else some d)
  let addr := address.bind (fun a => if a == "" then none else some a)
  let row : EventRow := ⟨st.nextEventId, title, desc, addr, date, none, user_id, now⟩
  let st2 := { st with events := st.events ++ [row], nextEventId := st.nextEventId + 1 }
  (st2, findById st2 row.id)

/-- Row of `getUserRegistrationsStmt`: `SELECT e.*, er.registered_at, u.email
as owner_email, u.name as owner_name FROM event_registrations er JOIN events e
ON er.event_id = e.id JOIN users u ON e.user_id = u.id WHERE er.user_id = ?`.
Because `e.*` supplies the `id` column, `id` is the EVENT id; the
registration row's own primary key is not selected. -/
structure UserRegRow where
  id : Nat
  title : String
  description : Option String
  address : Option String
  date : Int
  image_url : Option String
  user_id : Nat
  created_at : Int
  registered_at : Int
  owner_email : String
  owner_name : String
deriving DecidableEq, Repr

/-- `getUserRegistrations(userId)`: one row per registration of the user whose
event and event-owner rows exist (`id` column keys are unique, so the joins
are embedded as first-match lookups; `ORDER BY e.date` is not modelled). -/
def getUserRegistrations (st : DB) (userId : Nat) : List UserRegRow :=
  (st.regs.filter (fun r => r.user_id == userId)).filterMap (fun r =>
    (findById st r.event_id).bind (fun e =>
      (st.users.find? (fun u => u.id == e.user_id)).map (fun u =>
        ⟨e.id, e.title, e.description, e.address, e.date, e.image_url, e.user_id,
          e.created_at, r.registered_at, u.email, u.name⟩)))

end EventsModel

/-- The clock environment of one controller call: `now` is `new
Date().getTime()` and `oneYearFromNow` the timestamp of `now` with
`setFullYear(getFullYear() + 1)` applied. -/
structure Clock where
  now : Int
  oneYearFromNow : Int
deriving DecidableEq, Repr

/-- A JavaScript request-body field as the controllers inspect it: absent
(`undefined`), `null`, some non-string value, or a string. -/
inductive JsField
  | missing
  | nullv
  | nonString
  | str (s : String)
deriving DecidableEq, Repr

/-- The `JsText` view of a `JsField`, as passed to `sanitizeText`. -/
def jsTextOf : JsField → JsText
  | .str s => .str s
  | _ => .nonString

/-- A raw `date` field on create, abstracted by its parse outcome: `missing`
is any falsy value (`undefined`, `null`, `''`, `0`; all fail the `!date`
check), `invalid` a value `new Date(...)` cannot parse, and `valid t y` a
parseable value with timestamp `t` and `getFullYear()` equal to `y`. -/
inductive DateField
  | missing
  | invalid
  | valid (t : Int) (year : Int)
deriving DecidableEq, Repr

/-- The event-like input of `validateEventData`. -/
structure EventInput where
  title : JsField
  description : JsField
  address : JsField
  date : DateField
deriving DecidableEq, Repr

namespace EventsController

/-- Title block of `validateEventData`: falsy or non-string titles are
rejected as required; otherwise both length bounds are checked on the
sanitized title. -/
def titleErrors : JsField → List String
  | .str s =>
    if s == "" then ["Title is required and must be a string"]
    else
      (if (sanitizeStr s).length < 3 then ["Title must be at least 3 characters long"] else [])
        ++ (if (sanitizeStr s).length > 100 then ["Title must not exceed 100 characters"] else [])
  | _ => ["Title is required and must be a string"]

/-- Description block of `validateEventData` (optional field). -/
def descriptionErrors : JsField → List String
  | .missing => []
  | .nullv => []
  | .nonString => ["Description must be a string"]
  | .str s => if (sanitizeStr s).length > 500 then ["Description must not exceed 500 characters"] else []

/-- Address block of `validateEventData` (optional field). -/
def addressErrors : JsField → List String
  | .missing => []
  | .nullv => []
  | .nonString => ["Address must be a string"]
  | .str s => if (sanitizeStr s).length > 200 then ["Address must not exceed 200 characters"] else []

/-- Date block of `validateEventData`: required, parseable, strictly in the
future, at most one year ahead, year within 1900..2100; each violated
condition pushes its own message. -/
def dateErrors (clock : Clock) : DateField → List String
  | .missing => ["Date is required"]
  | .invalid => ["Please provide a valid date in ISO format (e.g., 2024-12-25T15:00:00Z)"]
  | .valid t year =>
    (if t ≤ clock.now then ["Event date must be in the future"] else [])
      ++ (if clock.oneYearFromNow < t then ["Event date cannot be more than 1 year in the future"] else [])
      ++ (if year < 1900 ∨ year > 2100 then ["Event date must be between years 1900 and 2100"] else [])

/-- `validateEventData` collects the four blocks in source order. -/
def validateEventData (inp : EventInput) (clock : Clock) : List String :=
  titleErrors inp.title ++ descriptionErrors inp.description
    ++ addressErrors inp.address ++ dateErrors clock inp.date

/-- `x ? sanitizeText(x) : null` for an optional text field: falsy values
(absent, `null`, `''`) give `null`; a truthy non-string would give
`sanitizeText(nonString) = ''`, which the storage call's `|| null` coercion
turns into `null` as well, so it is embedded as `none` directly. -/
def sanitizedOptional : JsField → Option String
  | .str s => if s == "" then none else some (sanitizeStr s)
  | _ => none

/-- The timestamp `new Date(date).getTime()` of a validated create date.  A
non-`valid` field cannot reach this point (validation already failed), so the
default is arbitrary. -/
def dateValue : DateField → Int
  | .valid t _ => t
  | _ => 0

/-- Outcome of the create-event controller: 400 with field errors, 409 on a
duplicate, or 201 with the persisted row. -/
inductive CreateResult
  | validationFailed (errors : List String)
  | conflict
  | created (event : Option EventRow)
deriving DecidableEq, Repr

/-- `createEvent` controller: validate, sanitize, reject a duplicate (same
owner, same case-insensitive title, same timestamp), otherwise insert with
`user_id` = the authenticated caller. -/
def createEvent (st : DB) (userId : Nat) (clock : Clock) (inp : EventInput) :
    CreateResult × DB :=
  let errs := validateEventData inp clock
  if errs.isEmpty then
    let sanitizedTitle := sanitizeText (jsTextOf inp.title)
    let sanitizedDescription := sanitizedOptional inp.description
    let sanitizedAddress := sanitizedOptional inp.address
    let t := dateValue inp.date
    let dup := (EventsModel.findByUserId st userId).any (fun event =>
      toLowerStr event.title == toLowerStr sanitizedTitle && event.date == t)
    if dup then (.conflict, st)
    else
      let (st2, row) := EventsModel.createEvent st sanitizedTitle sanitizedDescription
        sanitizedAddress t userId clock.now
      (.created row, st2)
  else (.validationFailed errs, st)

/-- A raw `date` field on update: `absent` is `undefined` (the only gate is
`date !== undefined`); a provided value carries its parse outcome (`none` when
`isValidDate` fails). -/
inductive UpdDate
  | absent
  | provided (parsed : Option Int)
deriving DecidableEq, Repr

/-- The request body of the update controller. -/
structure UpdateInput where
  title : JsField
  description : JsField
  address : JsField
  date : UpdDate
deriving DecidableEq, Repr

/-- Title branch of the update controller: returns the errors pushed and the
`updateData.title` entry set (absent field touches nothing). -/
def updTitleStep : JsField → List String × Option String
  | .missing => ([], none)
  | .str s =>
    if (sanitizeStr s).length < 3 then (["Title must be at least 3 characters long"], none)
    else if (sanitizeStr s).length > 100 then (["Title must not exceed 100 characters"], none)
    else ([], some (sanitizeStr s))
  | _ => (["Title must be at least 3 characters long"], none)

/-- Description branch of the update controller: `null` and `''` pass
validation and set `updateData.description = null`. -/
def updDescStep : JsField → List String × Option (Option String)
  | .missing => ([], none)
  | .nonString => (["Description must be a string"], none)
  | .nullv => ([], some none)
  | .str s =>
    if s != "" && (sanitizeStr s).length > 500 then
      (["Description must not exceed 500 characters"], none)
    else ([], some (if s == "" then none else some (sanitizeStr s)))

/-- Address branch of the update controller. -/
def updAddrStep : JsField → List String × Option (Option String)
  | .missing => ([], none)
  | .nonString => (["Address must be a string"], none)
  | .nullv => ([], some none)
  | .str s =>
    if s != "" && (sanitizeStr s).length > 200 then
      (["Address must not exceed 200 characters"], none)
    else ([], some (if s == "" then none else some (sanitizeStr s)))

/-- Date branch of the update controller: parseability and the strictly-
in-the-future check only. -/
def updDateStep (now : Int) : UpdDate → List String × Option Int
  | .absent => ([], none)
  | .provided none => (["Please provide a valid date in ISO format"], none)
  | .provided (some t) =>
    if t ≤ now then (["Event date must be in the future"], none)
    else ([], some t)

/-- The JS `updateData` object built by the update controller. -/
structure UpdateData where
  title : Option String
  description : Option (Option String)
  address : Option (Option String)
  date : Option Int
deriving DecidableEq, Repr

/-- The `|| null` coercions applied to `updateData` at the
`updateEventStmt.run` call site: an absent entry, an explicit `null`, and an
empty string all become the SQL NULL parameter. -/
def toPayload (d : UpdateData) : EventsModel.UpdatePayload :=
  { title := d.title.bind (fun s => if s == "" then none else some s)
    description := d.description.bind (fun o =>
      o.bind (fun s => if s == "" then none else some s))
    address := d.address.bind (fun o =>
      o.bind (fun s => if s == "" then none else some s))
    date := d.date }

/-- Outcome of the update-event controller. -/
inductive CtrlUpdateResult
  | validationFailed (errors : List String)
  | err (e : ModelError)
  | ok (event : Option EventRow)
deriving DecidableEq, Repr

/-- `updateEvent` controller: validate only the provided fields (collecting
errors in source order), then delegate to the model layer. -/
def updateEvent (st : DB) (eventId userId : Nat) (now : Int) (inp : UpdateInput) :
    CtrlUpdateResult × DB :=
  let tStep := updTitleStep inp.title
  let dStep := updDescStep inp.description
  let aStep := updAddrStep inp.address
  let dtStep := updDateStep now inp.date
  let errs := tStep.1 ++ dStep.1 ++ aStep.1 ++ dtStep.1
  if errs.isEmpty then
    let d : UpdateData := ⟨tStep.2, dStep.2, aStep.2, dtStep.2⟩
    match EventsModel.updateEvent st eventId userId (toPayload d) with
    | (.err e, st') => (.err e, st')
    | (.ok ev, st') => (.ok ev, st')
  else (.validationFailed errs, st)

/-- The per-registration view built by the get-user-registrations controller:
`registration_id: reg.id` and `event: { id: reg.id, ... }` both read the `id`
column of the query row. -/
structure RegistrationView where
  registration_id : Nat
  registered_at : Int
  event_id : Nat
  event_title : String
  event_description : Option String
  event_address : Option String
  event_date : Int
  owner_email : String
  owner_name : String
deriving DecidableEq, Repr

/-- `getUserRegistrations` controller: map each query row to the response
shape. -/
def getUserRegistrations (st : DB) (userId : Nat) : List RegistrationView :=
  (EventsModel.getUserRegistrations st userId).map (fun reg =>
    ⟨reg.id, reg.registered_at, reg.id, reg.title, reg.description, reg.address,
      reg.date, reg.owner_email, reg.owner_name⟩)

end EventsController

/-- The states reachable from an initial database (seeded with arbitrary user
rows, no events, no registrations) by the modelled mutating operations.
Controller-level create/update are compositions of validation (which leaves
the state unchanged on failure) and these model-level steps, so closure under
the model-level steps covers them. -/
inductive Reachable : DB → Prop
  | start (users : List UserRow) : Reachable ⟨users, [], [], 0, 0⟩
  | addUser (st : DB) (u : UserRow) : Reachable st →
      Reachable { st with users := st.users ++ [u] }
  | create (st : DB) (title : String) (description address : Option String)
      (date : Int) (userId : Nat) (now : Int) : Reachable st →
      Reachable (EventsModel.createEvent st title description address date userId now).1
  | update (st : DB) (id userId : Nat) (p : EventsModel.UpdatePayload) : Reachable st →
      Reachable (EventsModel.updateEvent st id userId p).2
  | delete (st : DB) (id userId : Nat) : Reachable st →
      Reachable (EventsModel.deleteEvent st id userId).2
  | register (st : DB) (eventId userId : Nat) (now : Int) : Reachable st →
      Reachable (EventsModel.registerForEvent st eventId userId now).2
  | unregister (st : DB) (eventId userId : Nat) : Reachable st →
      Reachable (EventsModel.unregisterFromEvent st eventId userId).2

/-- The inductive state invariant: event ids are unique and below the next
rowid, registrations reference existing events, and no registration's user
owns its event. -/
def StateInv (st : DB) : Prop :=
  (st.events.map EventRow.id).Nodup ∧
    (∀ e ∈ st.events, e.id < st.nextEventId) ∧
    (∀ r ∈ st.regs, ∃ e ∈ st.events, e.id = r.event_id) ∧
    (∀ r ∈ st.regs, ∀ e ∈ st.events, e.id = r.event_id → e.user_id ≠ r.user_id)

theorem headNonWs_dropWhile (l : List Char) : headNonWs (l.dropWhile isWs) = true := by
  induction l with
  | nil => rfl
  | cons c cs ih =>
    by_cases h : isWs c
    · simpa [List.dropWhile, h] using ih
    · simp [List.dropWhile, h, headNonWs]

theorem dropWhile_eq_self_of_headNonWs (l : List Char) (h : headNonWs l = true) :
    l.dropWhile isWs = l := by
  cases l with
  | nil => rfl
  | cons c cs =>
    simp only [headNonWs, Bool.not_eq_true'] at h
    simp [List.dropWhile, h]

theorem trimChars_eq_self (l : List Char) (h1 : headNonWs l = true)
    (h2 : headNonWs l.reverse = true) : trimChars l = l := by
  unfold trimChars
  rw [dropWhile_eq_self_of_headNonWs l h1, dropWhile_eq_self_of_headNonWs l.reverse h2,
    List.reverse_reverse]

theorem headNonWs_collapseWs_true (l : List Char) :
    headNonWs (collapseWs true l) = true := by
  induction l with
  | nil => rfl
  | cons c cs ih =>
    by_cases h : isWs c
    · simpa [collapseWs, h] using ih
    · simp [collapseWs, h, headNonWs]

theorem spaced_collapseWs (l : List Char) (b : Bool) : spaced (collapseWs b l) = true := by
  induction l generalizing b with
  | nil => rfl
  | cons c cs ih =>
    by_cases h : isWs c
    · cases b with
      | true => simpa [collapseWs, h] using ih true
      | false =>
        simp only [collapseWs, h, if_true, Bool.false_eq_true, if_false, spaced]
        simp [headNonWs_collapseWs_true, ih true]
    · simp only [collapseWs, h, Bool.false_eq_true, if_false, spaced]
      simp [h, ih false]

theorem collapseWs_eq_self_of_spaced (l : List Char) (hs : spaced l = true) :
    collapseWs false l = l ∧ (headNonWs l = true → collapseWs true l = l) := by
  induction l with
  | nil => exact ⟨rfl, fun _ => rfl⟩
  | cons c cs ih =>
    simp only [spaced, Bool.and_eq_true] at hs
    obtain ⟨hc, hrest⟩ := hs
    obtain ⟨ihF, ihT⟩ := ih hrest
    by_cases h : isWs c
    · simp only [h, Bool.not_true, Bool.false_or, Bool.and_eq_true, decide_eq_true_eq] at hc
      obtain ⟨hsp, hhd⟩ := hc
      subst hsp
      constructor
      · show collapseWs false (' ' :: cs) = ' ' :: cs
        simp [collapseWs, isWs, ihT hhd]
      · intro hh
        exact absurd hh (by simp [headNonWs, isWs])
    · refine ⟨?_, fun _ => ?_⟩
      · simp [collapseWs, h, ihF]
      · simp [collapseWs, h, ihF]

theorem headNonWs_append (u v : List Char) (hu : u ≠ []) :
    headNonWs (u ++ v) = headNonWs u := by
  cases u with
  | nil => exact absurd rfl hu
  | cons c cs => simp [headNonWs]

theorem headNonWs_reverse (l : List Char) : headNonWs l.reverse = lastNonWs l := by
  induction l with
  | nil => rfl
  | cons c cs ih =>
    cases cs with
    | nil => simp [headNonWs, lastNonWs]
    | cons d ds =>
      have hne : (d :: ds).reverse ≠ [] := by simp
      calc headNonWs (c :: d :: ds).reverse
          = headNonWs ((d :: ds).reverse ++ [c]) := by simp
        _ = headNonWs (d :: ds).reverse := headNonWs_append _ _ hne
        _ = lastNonWs (d :: ds) := ih
        _ = lastNonWs (c :: d :: ds) := by simp [lastNonWs]

theorem lastNonWs_dropWhile (l : List Char) (h : lastNonWs l = true) :
    lastNonWs (l.dropWhile isWs) = true := by
  induction l with
  | nil => rfl
  | cons c cs ih =>
    by_cases hc : isWs c
    · rw [List.dropWhile_cons_of_pos (by simpa using hc)]
      cases cs with
      | nil => rfl
      | cons d ds => exact ih (by simpa [lastNonWs] using h)
    · rw [List.dropWhile_cons_of_neg (by simpa using hc)]
      exact h

theorem lastNonWs_cons_of_ne_nil (c : Char) (r : List Char) (hr : r ≠ []) :
    lastNonWs (c :: r) = lastNonWs r := by
  cases r with
  | nil => exact absurd rfl hr
  | cons d ds => simp [lastNonWs]

theorem collapseWs_cons_ws_false (c : Char) (cs : List Char) (hc : isWs c = true) :
    collapseWs false (c :: cs) = ' ' :: collapseWs true cs := by
  simp [collapseWs, hc]

theorem collapseWs_cons_ws_true (c : Char) (cs : List Char) (hc : isWs c = true) :
    collapseWs true (c :: cs) = collapseWs true cs := by
  simp [collapseWs, hc]

theorem collapseWs_cons_nonws (b : Bool) (c : Char) (cs : List Char) (hc : isWs c = false) :
    collapseWs b (c :: cs) = c :: collapseWs false cs := by
  simp [collapseWs, hc]

theorem collapseWs_ne_nil (l : List Char) :
    lastNonWs l = true → l ≠ [] → ∀ b, collapseWs b l ≠ [] := by
  induction l with
  | nil => intro _ hl _; exact absurd rfl hl
  | cons c cs ih =>
    intro h _ b
    by_cases hc : isWs c
    · cases cs with
      | nil => simp [lastNonWs, hc] at h
      | cons d ds =>
        have h' : lastNonWs (d :: ds) = true := by simpa [lastNonWs] using h
        cases b with
        | true =>
          rw [collapseWs_cons_ws_true c _ (by simpa using hc)]
          exact ih h' (by simp) true
        | false =>
          rw [collapseWs_cons_ws_false c _ (by simpa using hc)]
          simp
    · rw [collapseWs_cons_nonws b c cs (by simpa using hc)]
      simp

theorem lastNonWs_collapseWs (l : List Char) :
    lastNonWs l = true → ∀ b, lastNonWs (collapseWs b l) = true := by
  induction l with
  | nil => intro _ _; rfl
  | cons c cs ih =>
    intro h b
    cases cs with
    | nil =>
      have hc : isWs c = false := by simpa [lastNonWs] using h
      rw [collapseWs_cons_nonws b c [] hc]
      simpa [collapseWs, lastNonWs] using h
    | cons d ds =>
      have h' : lastNonWs (d :: ds) = true := by simpa [lastNonWs] using h
      have hne : collapseWs false (d :: ds) ≠ [] := collapseWs_ne_nil _ h' (by simp) false
      have hneT : collapseWs true (d :: ds) ≠ [] := collapseWs_ne_nil _ h' (by simp) true
      by_cases hc : isWs c
      · cases b with
        | true =>
          rw [collapseWs_cons_ws_true c _ (by simpa using hc)]
          exact ih h' true
        | false =>
          rw [collapseWs_cons_ws_false c _ (by simpa using hc),
            lastNonWs_cons_of_ne_nil _ _ hneT]
          exact ih h' true
      · rw [collapseWs_cons_nonws b c _ (by simpa using hc),
          lastNonWs_cons_of_ne_nil _ _ hne]
        exact ih h' false

theorem headNonWs_collapseWs_false (l : List Char) (h : headNonWs l = true) :
    headNonWs (collapseWs false l) = true := by
  cases l with
  | nil => rfl
  | cons c cs =>
    have hc : isWs c = false := by simpa [headNonWs] using h
    simp [collapseWs, hc, headNonWs]

theorem headNonWs_trimChars (l : List Char) : headNonWs (trimChars l) = true := by
  unfold trimChars
  rw [headNonWs_reverse]
  apply lastNonWs_dropWhile
  rw [← headNonWs_reverse, List.reverse_reverse]
  exact headNonWs_dropWhile l

theorem lastNonWs_trimChars (l : List Char) : lastNonWs (trimChars l) = true := by
  unfold trimChars
  rw [← headNonWs_reverse, List.reverse_reverse]
  exact headNonWs_dropWhile _

theorem sanitizeStr_data_props (s : String) :
    headNonWs (sanitizeStr s).data = true ∧ lastNonWs (sanitizeStr s).data = true ∧
      spaced (sanitizeStr s).data = true := by
  refine ⟨?_, ?_, ?_⟩
  · exact headNonWs_collapseWs_false _ (headNonWs_trimChars _)
  · exact lastNonWs_collapseWs _ (lastNonWs_trimChars _) false
  · exact spaced_collapseWs _ _

theorem sanitizeStr_idem (s : String) : sanitizeStr (sanitizeStr s) = sanitizeStr s := by
  obtain ⟨h1, h2, h3⟩ := sanitizeStr_data_props s
  show (⟨collapseWs false (trimChars (sanitizeStr s).data)⟩ : String) = sanitizeStr s
  rw [trimChars_eq_self _ h1 (by rwa [headNonWs_reverse]),
    (collapseWs_eq_self_of_spaced _ h3).1]

theorem findById_mem (st : DB) (i : Nat) (e : EventRow)
    (h : EventsModel.findById st i = some e) : e ∈ st.events ∧ e.id = i := by
  unfold EventsModel.findById at h
  refine ⟨List.mem_of_find?_eq_some h, ?_⟩
  have := List.find?_some h
  simpa using this

theorem findRegistration_mem (st : DB) (eventId userId : Nat) (r : RegRow)
    (h : EventsModel.findRegistration st eventId userId = some r) :
    r ∈ st.regs ∧ r.event_id = eventId ∧ r.user_id = userId := by
  unfold EventsModel.findRegistration at h
  refine ⟨List.mem_of_find?_eq_some h, ?_, ?_⟩ <;>
    · have := List.find?_some h
      simp only [Bool.and_eq_true, beq_iff_eq] at this
      tauto

/-- C1: `registerForEvent` applies its four checks in order — existence,
self-registration, duplicate registration, past date — and on success inserts
a registration row carrying the next rowid and the current timestamp and
returns it.  The duplicate check precedes the past-date check, so an
already-registered pair yields `ALREADY_REGISTERED` regardless of the event's
date. -/
theorem registerForEvent_spec (st : DB) (eventId userId : Nat) (now : Int) :
    (EventsModel.findById st eventId = none →
      EventsModel.registerForEvent st eventId userId now = (.err .EVENT_NOT_FOUND, st)) ∧
    (∀ e, EventsModel.findById st eventId = some e → e.user_id = userId →
      EventsModel.registerForEvent st eventId userId now = (.err .SELF_REGISTRATION, st)) ∧
    (∀ e r, EventsModel.findById st eventId = some e → e.user_id ≠ userId →
      EventsModel.findRegistration st eventId userId = some r →
      EventsModel.registerForEvent st eventId userId now = (.err .ALREADY_REGISTERED, st)) ∧
    (∀ e, EventsModel.findById st eventId = some e → e.user_id ≠ userId →
      EventsModel.findRegistration st eventId userId = none → e.date ≤ now →
      EventsModel.registerForEvent st eventId userId now = (.err .EVENT_PAST, st)) ∧
    (∀ e, EventsModel.findById st eventId = some e → e.user_id ≠ userId →
      EventsModel.findRegistration st eventId userId = none → now < e.date →
      EventsModel.registerForEvent st eventId userId now =
        (.ok ⟨st.nextRegId, eventId, userId, now⟩,
          { st with
              regs := st.regs ++ [⟨st.nextRegId, eventId, userId, now⟩]
              nextRegId := st.nextRegId + 1 })) := by
  refine ⟨?_, ?_, ?_, ?_, ?_⟩
  · intro h
    simp [EventsModel.registerForEvent, h]
  · intro e h1 h2
    simp [EventsModel.registerForEvent, h1, h2]
  · intro e r h1 h2 h3
    simp [EventsModel.registerForEvent, h1, h2, h3]
  · intro e h1 h2 h3 h4
    simp [EventsModel.registerForEvent, h1, h2, h3, h4]
  · intro e h1 h2 h3 h4
    simp [EventsModel.registerForEvent, h1, h2, h3, not_le.mpr h4]

/-- Witness for C1: in a state where user 2 is already registered for event 1
(owned by user 1) and the event date (5) is already past at `now = 10`, the
result is `ALREADY_REGISTERED`, not `EVENT_PAST`. -/
theorem registerForEvent_spec_witness :
    EventsModel.registerForEvent ⟨[], [⟨1, "Party", none, none, 5, none, 1, 0⟩],
        [⟨0, 1, 2, 0⟩], 2, 1⟩ 1 2 10 =
      (.err .ALREADY_REGISTERED,
        ⟨[], [⟨1, "Party", none, none, 5, none, 1, 0⟩], [⟨0, 1, 2, 0⟩], 2, 1⟩) :=
  (registerForEvent_spec _ 1 2 10).2.2.1 ⟨1, "Party", none, none, 5, none, 1, 0⟩
    ⟨0, 1, 2, 0⟩ (by decide) (by decide) (by decide)

theorem countP_owner_ne_zero (st : DB) (i userId : Nat) (e : EventRow)
    (hf : EventsModel.findById st i = some e) (ho : e.user_id = userId) :
    st.events.countP (fun e' => e'.id == i && e'.user_id == userId) ≠ 0 := by
  obtain ⟨hm, hid⟩ := findById_mem st i e hf
  intro h
  rw [List.countP_eq_zero] at h
  exact h e hm (by simp [hid, ho])

/-- C2: for event update and event delete the existence check precedes the
ownership check: a missing event id yields `EVENT_NOT_FOUND` whoever calls; an
existing event owned by someone else yields `UNAUTHORIZED` and the state is
unchanged; only an existing event owned by the caller is modified
(respectively deleted). -/
theorem update_delete_existence_before_ownership (st : DB) (i userId : Nat)
    (p : EventsModel.UpdatePayload) :
    (EventsModel.findById st i = none →
      EventsModel.updateEvent st i userId p = (.err .EVENT_NOT_FOUND, st) ∧
      EventsModel.deleteEvent st i userId = (.err .EVENT_NOT_FOUND, st)) ∧
    (∀ e, EventsModel.findById st i = some e → e.user_id ≠ userId →
      EventsModel.updateEvent st i userId p = (.err .UNAUTHORIZED, st) ∧
      EventsModel.deleteEvent st i userId = (.err .UNAUTHORIZED, st)) ∧
    (∀ e, EventsModel.findById st i = some e → e.user_id = userId →
      (∃ ev, (EventsModel.updateEvent st i userId p).1 = .ok ev) ∧
      (EventsModel.updateEvent st i userId p).2.events =
        st.events.map (fun e' =>
          if e'.id == i && e'.user_id == userId then EventsModel.applyCoalesce p e' else e') ∧
      (EventsModel.deleteEvent st i userId).1 = .ok ∧
      (EventsModel.deleteEvent st i userId).2.events =
        st.events.filter (fun e' => !(e'.id == i && e'.user_id == userId))) := by
  refine ⟨?_, ?_, ?_⟩
  · intro h
    constructor <;> simp [EventsModel.updateEvent, EventsModel.deleteEvent, h]
  · intro e h1 h2
    constructor <;>
      simp [EventsModel.updateEvent, EventsModel.deleteEvent, h1, h2]
  · intro e h1 h2
    have hc := countP_owner_ne_zero st i userId e h1 h2
    refine ⟨?_, ?_, ?_, ?_⟩ <;>
      simp [EventsModel.updateEvent, EventsModel.deleteEvent, EventsModel.runUpdateStmt,
        EventsModel.runDeleteStmt, h1, h2, hc]

/-- Witness for C2: an existing event (id 1, owner 1) updated and deleted by
user 2 yields `UNAUTHORIZED` with the state unchanged. -/
theorem update_delete_existence_before_ownership_witness :
    EventsModel.updateEvent ⟨[], [⟨1, "Party", none, none, 5, none, 1, 0⟩], [], 2, 0⟩ 1 2
        ⟨none, none, none, none⟩ =
      (.err .UNAUTHORIZED, ⟨[], [⟨1, "Party", none, none, 5, none, 1, 0⟩], [], 2, 0⟩) ∧
    EventsModel.deleteEvent ⟨[], [⟨1, "Party", none, none, 5, none, 1, 0⟩], [], 2, 0⟩ 1 2 =
      (.err .UNAUTHORIZED, ⟨[], [⟨1, "Party", none, none, 5, none, 1, 0⟩], [], 2, 0⟩) :=
  (update_delete_existence_before_ownership
      ⟨[], [⟨1, "Party", none, none, 5, none, 1, 0⟩], [], 2, 0⟩ 1 2
      ⟨none, none, none, none⟩).2.1
    ⟨1, "Party", none, none, 5, none, 1, 0⟩ (by decide) (by decide)

theorem registerForEvent_err_frame (st : DB) (eventId userId : Nat) (now : Int)
    (e : ModelError) :
    (EventsModel.registerForEvent st eventId userId now).1 = .err e →
    (EventsModel.registerForEvent st eventId userId now).2 = st := by
  unfold EventsModel.registerForEvent
  split
  · intro _; rfl
  · split
    · intro _; rfl
    · split
      · intro _; rfl
      · split
        · intro _; rfl
        · intro h; exact absurd h (by simp)

theorem updateEvent_err_frame (st : DB) (i userId : Nat) (p : EventsModel.UpdatePayload)
    (e : ModelError) (he : e = .EVENT_NOT_FOUND ∨ e = .UNAUTHORIZED) :
    (EventsModel.updateEvent st i userId p).1 = .err e →
    (EventsModel.updateEvent st i userId p).2 = st := by
  unfold EventsModel.updateEvent
  dsimp only
  split
  · intro _; rfl
  · split
    · intro _; rfl
    · split
      · intro h
        simp only [EventsModel.UpdateResult.err.injEq] at h
        subst h
        rcases he with he | he <;> cases he
      · intro h; exact absurd h (by simp)

theorem deleteEvent_err_frame (st : DB) (i userId : Nat)
    (e : ModelError) (he : e = .EVENT_NOT_FOUND ∨ e = .UNAUTHORIZED) :
    (EventsModel.deleteEvent st i userId).1 = .err e →
    (EventsModel.deleteEvent st i userId).2 = st := by
  unfold EventsModel.deleteEvent
  dsimp only
  split
  · intro _; rfl
  · split
    · intro _; rfl
    · split
      · intro h
        simp only [EventsModel.DeleteResult.err.injEq] at h
        subst h
        rcases he with he | he <;> cases he
      · intro h; exact absurd h (by simp)

theorem unregisterFromEvent_err_frame (st : DB) (eventId userId : Nat)
    (e : ModelError) (he : e = .EVENT_NOT_FOUND ∨ e = .NOT_REGISTERED) :
    (EventsModel.unregisterFromEvent st eventId userId).1 = .err e →
    (EventsModel.unregisterFromEvent st eventId userId).2 = st := by
  unfold EventsModel.unregisterFromEvent
  dsimp only
  split
  · intro _; rfl
  · split
    · intro _; rfl
    · split
      · intro h
        simp only [EventsModel.UnregisterResult.err.injEq] at h
        subst h
        rcases he with he | he <;> cases he
      · intro h; exact absurd h (by simp)

theorem createEvent_ctrl_fail_frame (st : DB) (userId : Nat) (clock : Clock)
    (inp : EventInput) :
    (∀ errs, (EventsController.createEvent st userId clock inp).1 = .validationFailed errs →
      (EventsController.createEvent st userId clock inp).2 = st) ∧
    ((EventsController.createEvent st userId clock inp).1 = .conflict →
      (EventsController.createEvent st userId clock inp).2 = st) := by
  unfold EventsController.createEvent
  dsimp only
  constructor
  · intro errs
    split
    · split
      · intro _; rfl
      · intro h; exact absurd h (by simp)
    · intro _; rfl
  · split
    · split
      · intro _; rfl
      · intro h; exact absurd h (by simp)
    · intro h; exact absurd h (by simp)

theorem updateEvent_ctrl_fail_frame (st : DB) (eventId userId : Nat) (now : Int)
    (inp : EventsController.UpdateInput) :
    (∀ errs, (EventsController.updateEvent st eventId userId now inp).1 =
        .validationFailed errs →
      (EventsController.updateEvent st eventId userId now inp).2 = st) ∧
    (∀ e, e = ModelError.EVENT_NOT_FOUND ∨ e = ModelError.UNAUTHORIZED →
      (EventsController.updateEvent st eventId userId now inp).1 = .err e →
      (EventsController.updateEvent st eventId userId now inp).2 = st) := by
  unfold EventsController.updateEvent
  dsimp only
  constructor
  · intro errs
    split
    · cases hm : EventsModel.updateEvent st eventId userId
        (EventsController.toPayload
          ⟨(EventsController.updTitleStep inp.title).2,
            (EventsController.updDescStep inp.description).2,
            (EventsController.updAddrStep inp.address).2,
            (EventsController.updDateStep now inp.date).2⟩) with
      | mk r st' =>
        cases r <;> simp
    · intro _; rfl
  · intro e he
    split
    · cases hm : EventsModel.updateEvent st eventId userId
        (EventsController.toPayload
          ⟨(EventsController.updTitleStep inp.title).2,
            (EventsController.updDescStep inp.description).2,
            (EventsController.updAddrStep inp.address).2,
            (EventsController.updDateStep now inp.date).2⟩) with
      | mk r st' =>
        cases r with
        | err e' =>
          simp only [hm]
          intro h
          simp only [EventsController.CtrlUpdateResult.err.injEq] at h
          subst h
          have := updateEvent_err_frame st eventId userId
            (EventsController.toPayload
              ⟨(EventsController.updTitleStep inp.title).2,
                (EventsController.updDescStep inp.description).2,
                (EventsController.updAddrStep inp.address).2,
                (EventsController.updDateStep now inp.date).2⟩) e' he
          rw [hm] at this
          exact this rfl
        | ok ev =>
          simp only [hm]
          intro h
          exact absurd h (by simp)
    · intro h; exact absurd h (by simp)

/-- C9: no operation partially applies its effect — whenever event create,
update, delete, register or unregister returns one of the validation or
business-rule failures (`VALIDATION_FAILED`, `EVENT_NOT_FOUND`,
`UNAUTHORIZED`, `CONFLICT`, `SELF_REGISTRATION`, `ALREADY_REGISTERED`,
`NOT_REGISTERED`, `EVENT_PAST`), the stored state after the call equals the
stored state before the call. -/
theorem no_partial_effects (st : DB) (userId eventId : Nat) (now : Int)
    (clock : Clock) (inp : EventInput) (uinp : EventsController.UpdateInput)
    (p : EventsModel.UpdatePayload) :
    (∀ errs, (EventsController.createEvent st userId clock inp).1 = .validationFailed errs →
      (EventsController.createEvent st userId clock inp).2 = st) ∧
    ((EventsController.createEvent st userId clock inp).1 = .conflict →
      (EventsController.createEvent st userId clock inp).2 = st) ∧
    (∀ e, e = ModelError.EVENT_NOT_FOUND ∨ e = ModelError.UNAUTHORIZED →
      (EventsModel.updateEvent st eventId userId p).1 = .err e →
      (EventsModel.updateEvent st eventId userId p).2 = st) ∧
    (∀ errs, (EventsController.updateEvent st eventId userId now uinp).1 =
        .validationFailed errs →
      (EventsController.updateEvent st eventId userId now uinp).2 = st) ∧
    (∀ e, e = ModelError.EVENT_NOT_FOUND ∨ e = ModelError.UNAUTHORIZED →
      (EventsController.updateEvent st eventId userId now uinp).1 = .err e →
      (EventsController.updateEvent st eventId userId now uinp).2 = st) ∧
    (∀ e, e = ModelError.EVENT_NOT_FOUND ∨ e = ModelError.UNAUTHORIZED →
      (EventsModel.deleteEvent st eventId userId).1 = .err e →
      (EventsModel.deleteEvent st eventId userId).2 = st) ∧
    (∀ e, (EventsModel.registerForEvent st eventId userId now).1 = .err e →
      (EventsModel.registerForEvent st eventId userId now).2 = st) ∧
    (∀ e, e = ModelError.EVENT_NOT_FOUND ∨ e = ModelError.NOT_REGISTERED →
      (EventsModel.unregisterFromEvent st eventId userId).1 = .err e →
      (EventsModel.unregisterFromEvent st eventId userId).2 = st) :=
  ⟨(createEvent_ctrl_fail_frame st userId clock inp).1,
    (createEvent_ctrl_fail_frame st userId clock inp).2,
    fun e he => updateEvent_err_frame st eventId userId p e he,
    (updateEvent_ctrl_fail_frame st eventId userId now uinp).1,
    (updateEvent_ctrl_fail_frame st eventId userId now uinp).2,
    fun e he => deleteEvent_err_frame st eventId userId e he,
    fun e => registerForEvent_err_frame st eventId userId now e,
    fun e he => unregisterFromEvent_err_frame st eventId userId e he⟩

/-- Witness for C9: a create call with every field absent fails validation
(`Title is required`, `Date is required`) and leaves the empty database
unchanged. -/
theorem no_partial_effects_witness :
    (EventsController.createEvent ⟨[], [], [], 0, 0⟩ 1 ⟨0, 0⟩
        ⟨.missing, .missing, .missing, .missing⟩).2 = ⟨[], [], [], 0, 0⟩ :=
  (no_partial_effects ⟨[], [], [], 0, 0⟩ 1 0 0 ⟨0, 0⟩
      ⟨.missing, .missing, .missing, .missing⟩ ⟨.missing, .missing, .missing, .absent⟩
      ⟨none, none, none, none⟩).1
    ["Title is required and must be a string", "Date is required"] (by decide)

/-- C5: if the INSERT raises the storage uniqueness-constraint violation even
though the already-registered pre-check passed (the pair was inserted
concurrently between the check and the insert, so the insert-time state
`insertSt` differs from the check-time state `checkSt`), the `catch` maps it
to the typed `ALREADY_REGISTERED` outcome rather than rethrowing; together
with the pre-check branch, a second registration of the same pair yields
`ALREADY_REGISTERED` whichever of the two detects it.  Sequentially
(`checkSt = insertSt`) the call never throws and agrees with
`registerForEvent`. -/
theorem register_unique_violation_maps_to_already_registered
    (checkSt insertSt : DB) (eventId userId : Nat) (now : Int) (e : EventRow)
    (h1 : EventsModel.findById checkSt eventId = some e)
    (h2 : e.user_id ≠ userId) :
    (∀ r, EventsModel.findRegistration checkSt eventId userId = some r →
      EventsModel.registerForEventRace checkSt insertSt eventId userId now =
        .ok (.err .ALREADY_REGISTERED, insertSt)) ∧
    (EventsModel.findRegistration checkSt eventId userId = none → now < e.date →
      (∃ r ∈ insertSt.regs, r.event_id = eventId ∧ r.user_id = userId) →
      EventsModel.registerForEventRace checkSt insertSt eventId userId now =
        .ok (.err .ALREADY_REGISTERED, insertSt)) ∧
    (∀ st : DB, EventsModel.registerForEventRace st st eventId userId now =
      .ok (EventsModel.registerForEvent st eventId userId now)) := by
  refine ⟨?_, ?_, ?_⟩
  · intro r h3
    simp [EventsModel.registerForEventRace, h1, h2, h3]
  · intro h3 h4 h5
    have hany : insertSt.regs.any
        (fun r => r.event_id == eventId && r.user_id == userId) = true := by
      rw [List.any_eq_true]
      obtain ⟨r, hr, hre, hru⟩ := h5
      exact ⟨r, hr, by simp [hre, hru]⟩
    simp [EventsModel.registerForEventRace, EventsModel.insertRegistrationRaw,
      h1, h2, h3, not_le.mpr h4, hany]
  · intro st
    unfold EventsModel.registerForEventRace EventsModel.registerForEvent
    cases hf : EventsModel.findById st eventId with
    | none => simp
    | some ev =>
      by_cases hu : ev.user_id == userId
      · simp [hu]
      · simp only [hu, Bool.false_eq_true, if_false]
        cases hr : EventsModel.findRegistration st eventId userId with
        | some r => simp
        | none =>
          by_cases hd : ev.date ≤ now
          · simp [hd]
          · have hany : st.regs.any
                (fun r => r.event_id == eventId && r.user_id == userId) = false := by
              rw [List.any_eq_false]
              intro r hrm
              intro hc
              unfold EventsModel.findRegistration at hr
              rw [List.find?_eq_none] at hr
              exact hr r hrm hc
            simp [hd, EventsModel.insertRegistrationRaw, hany]

/-- Witness for C5: check-time state has no registration of (event 1, user 2)
but the insert-time state already does; the race call returns
`ALREADY_REGISTERED` and leaves the insert-time state unchanged. -/
theorem register_unique_violation_maps_to_already_registered_witness :
    EventsModel.registerForEventRace
        ⟨[], [⟨1, "Party", none, none, 50, none, 1, 0⟩], [], 2, 0⟩
        ⟨[], [⟨1, "Party", none, none, 50, none, 1, 0⟩], [⟨0, 1, 2, 7⟩], 2, 1⟩ 1 2 10 =
      .ok (.err .ALREADY_REGISTERED,
        ⟨[], [⟨1, "Party", none, none, 50, none, 1, 0⟩], [⟨0, 1, 2, 7⟩], 2, 1⟩) :=
  (register_unique_violation_maps_to_already_registered
      ⟨[], [⟨1, "Party", none, none, 50, none, 1, 0⟩], [], 2, 0⟩
      ⟨[], [⟨1, "Party", none, none, 50, none, 1, 0⟩], [⟨0, 1, 2, 7⟩], 2, 1⟩ 1 2 10
      ⟨1, "Party", none, none, 50, none, 1, 0⟩ (by decide) (by decide)).2.1
    (by decide) (by decide) ⟨⟨0, 1, 2, 7⟩, by decide⟩

/-- C6: `sanitizeText` is idempotent — re-sanitizing an already-sanitized
string yields the same string — every non-string input sanitizes to the empty
string, and the output of sanitizing a string has no leading or trailing
whitespace and every internal whitespace run collapsed to one single space
(`spaced`). -/
theorem sanitizeText_idempotent :
    (∀ t : JsText, sanitizeText (.str (sanitizeText t)) = sanitizeText t) ∧
    sanitizeText .nonString = "" ∧
    (∀ s : String, headNonWs (sanitizeText (.str s)).data = true ∧
      lastNonWs (sanitizeText (.str s)).data = true ∧
      spaced (sanitizeText (.str s)).data = true) := by
  refine ⟨?_, rfl, ?_⟩
  · intro t
    cases t with
    | str s => exact sanitizeStr_idem s
    | nonString => rfl
  · intro s
    exact sanitizeStr_data_props s

/-- C7: on create, a parsed date passes validation exactly when it is strictly
later than now, at most one year ahead, and its calendar year lies in
[1900, 2100]; a missing date and an unparseable date get their own messages,
and each violated condition contributes its own message.  On update, only
parseability and the strictly-later-than-now condition are checked: any
parsed future timestamp is accepted. -/
theorem date_validation_spec (clock : Clock) (now : Int) :
    (∀ t y, EventsController.dateErrors clock (.valid t y) = [] ↔
      (clock.now < t ∧ t ≤ clock.oneYearFromNow ∧ 1900 ≤ y ∧ y ≤ 2100)) ∧
    (EventsController.dateErrors clock .missing = ["Date is required"]) ∧
    (EventsController.dateErrors clock .invalid =
      ["Please provide a valid date in ISO format (e.g., 2024-12-25T15:00:00Z)"]) ∧
    (∀ t y, t ≤ clock.now → "Event date must be in the future" ∈
      EventsController.dateErrors clock (.valid t y)) ∧
    (∀ t y, clock.oneYearFromNow < t → "Event date cannot be more than 1 year in the future" ∈
      EventsController.dateErrors clock (.valid t y)) ∧
    (∀ t y, y < 1900 ∨ y > 2100 → "Event date must be between years 1900 and 2100" ∈
      EventsController.dateErrors clock (.valid t y)) ∧
    (EventsController.updDateStep now .absent = ([], none)) ∧
    (EventsController.updDateStep now (.provided none) =
      (["Please provide a valid date in ISO format"], none)) ∧
    (∀ t, t ≤ now → EventsController.updDateStep now (.provided (some t)) =
      (["Event date must be in the future"], none)) ∧
    (∀ t, now < t → EventsController.updDateStep now (.provided (some t)) =
      ([], some t)) := by
  refine ⟨?_, rfl, rfl, ?_, ?_, ?_, rfl, rfl, ?_, ?_⟩
  · intro t y
    unfold EventsController.dateErrors
    dsimp only
    split_ifs with h1 h2 h3 <;> simp_all <;> omega
  · intro t y h
    simp [EventsController.dateErrors, h]
  · intro t y h
    simp [EventsController.dateErrors, h]
  · intro t y h
    simp [EventsController.dateErrors, h]
  · intro t h
    simp [EventsController.updDateStep, h]
  · intro t h
    simp [EventsController.updDateStep, not_le.mpr h]

/-- Witness for C7: with `now = 100` and `oneYearFromNow = 200`, the past
timestamp 50 contributes the in-the-future message on create, and on update a
future timestamp 150 with no other constraint is accepted. -/
theorem date_validation_spec_witness :
    ("Event date must be in the future" ∈
      EventsController.dateErrors ⟨100, 200⟩ (.valid 50 2024)) ∧
    EventsController.updDateStep 100 (.provided (some 99999)) = ([], some 99999) :=
  ⟨(date_validation_spec ⟨100, 200⟩ 100).2.2.2.1 50 2024 (by decide),
    (date_validation_spec ⟨100, 200⟩ 100).2.2.2.2.2.2.2.2.2 99999 (by decide)⟩

theorem find?_append_fresh (st : DB) (row : EventRow)
    (hfresh : ∀ e ∈ st.events, e.id < st.nextEventId) (hid : row.id = st.nextEventId) :
    List.find? (fun e => e.id == row.id) (st.events ++ [row]) = some row := by
  rw [List.find?_append]
  have h1 : st.events.find? (fun e => e.id == row.id) = none := by
    rw [List.find?_eq_none]
    intro e he
    simp only [beq_iff_eq, hid]
    have := hfresh e he
    omega
  rw [h1]
  simp

/-- C3: when validation passes, `createEvent` returns `CONFLICT` and inserts
nothing exactly when the caller already owns an event with the same
case-insensitive title at the same timestamp; with no such duplicate it
appends a row owned by the caller (fresh id, sanitized title, requested
timestamp) and returns that persisted row. -/
theorem createEvent_duplicate_conflict (st : DB) (userId : Nat) (clock : Clock)
    (inp : EventInput)
    (hv : EventsController.validateEventData inp clock = []) :
    ((∃ e ∈ st.events, e.user_id = userId ∧
        toLowerStr e.title = toLowerStr (sanitizeText (jsTextOf inp.title)) ∧
        e.date = EventsController.dateValue inp.date) →
      EventsController.createEvent st userId clock inp = (.conflict, st)) ∧
    ((¬ ∃ e ∈ st.events, e.user_id = userId ∧
        toLowerStr e.title = toLowerStr (sanitizeText (jsTextOf inp.title)) ∧
        e.date = EventsController.dateValue inp.date) →
      (∀ e ∈ st.events, e.id < st.nextEventId) →
      ∃ row : EventRow,
        EventsController.createEvent st userId clock inp =
          (.created (some row),
            { st with events := st.events ++ [row], nextEventId := st.nextEventId + 1 }) ∧
        row.id = st.nextEventId ∧ row.user_id = userId ∧
        row.title = sanitizeText (jsTextOf inp.title) ∧
        row.date = EventsController.dateValue inp.date ∧
        row.created_at = clock.now) := by
  constructor
  · intro hdup
    obtain ⟨e, he, hu, ht, hd⟩ := hdup
    have hany : ((EventsModel.findByUserId st userId).any fun event =>
        toLowerStr event.title == toLowerStr (sanitizeText (jsTextOf inp.title)) &&
          event.date == EventsController.dateValue inp.date) = true := by
      rw [List.any_eq_true]
      refine ⟨e, ?_, ?_⟩
      · simp [EventsModel.findByUserId, List.mem_filter, he, hu]
      · simp [ht, hd]
    unfold EventsController.createEvent
    simp [hv, hany]
  · intro hnd hfresh
    have hany : ((EventsModel.findByUserId st userId).any fun event =>
        toLowerStr event.title == toLowerStr (sanitizeText (jsTextOf inp.title)) &&
          event.date == EventsController.dateValue inp.date) = false := by
      rw [List.any_eq_false]
      intro e hef
      simp only [EventsModel.findByUserId, List.mem_filter, beq_iff_eq] at hef
      simp only [Bool.and_eq_true, beq_iff_eq, not_and]
      intro ht hd
      exact absurd ⟨e, hef.1, hef.2, ht, hd⟩ hnd
    refine ⟨⟨st.nextEventId, sanitizeText (jsTextOf inp.title),
      (EventsController.sanitizedOptional inp.description).bind
        (fun d => if d == "" then none else some d),
      (EventsController.sanitizedOptional inp.address).bind
        (fun a => if a == "" then none else some a),
      EventsController.dateValue inp.date, none, userId, clock.now⟩, ?_, rfl, rfl, rfl, rfl, rfl⟩
    unfold EventsController.createEvent EventsModel.createEvent
    simp only [hv, List.isEmpty_nil, if_true, hany, Bool.false_eq_true, if_false]
    unfold EventsModel.findById
    have hf := find?_append_fresh st
      ⟨st.nextEventId, sanitizeText (jsTextOf inp.title),
        (EventsController.sanitizedOptional inp.description).bind
          (fun d => if d == "" then none else some d),
        (EventsController.sanitizedOptional inp.address).bind
          (fun a => if a == "" then none else some a),
        EventsController.dateValue inp.date, none, userId, clock.now⟩ hfresh rfl
    dsimp only at hf ⊢
    rw [hf]

/-- Witness for C3: user 7 already owns "party time" at timestamp 150, so
creating " Party  Time " (sanitizes to "Party Time", same title
case-insensitively) at 150 yields `CONFLICT` and no insert. -/
theorem createEvent_duplicate_conflict_witness :
    EventsController.createEvent
        ⟨[], [⟨1, "party time", none, none, 150, none, 7, 0⟩], [], 2, 0⟩ 7 ⟨100, 10000⟩
        ⟨.str " Party  Time ", .missing, .missing, .valid 150 2024⟩ =
      (.conflict, ⟨[], [⟨1, "party time", none, none, 150, none, 7, 0⟩], [], 2, 0⟩) :=
  (createEvent_duplicate_conflict
      ⟨[], [⟨1, "party time", none, none, 150, none, 7, 0⟩], [], 2, 0⟩ 7 ⟨100, 10000⟩
      ⟨.str " Party  Time ", .missing, .missing, .valid 150 2024⟩ (by decide)).1
    ⟨⟨1, "party time", none, none, 150, none, 7, 0⟩, by decide, by decide, by decide, by decide⟩

theorem findById_after_update (st : DB) (i u : Nat) (p : EventsModel.UpdatePayload)
    (e : EventRow) (hf : EventsModel.findById st i = some e) (ho : e.user_id = u) :
    EventsModel.findById
      { st with events := st.events.map (fun x =>
          if x.id == i && x.user_id == u then EventsModel.applyCoalesce p x else x) } i =
      some (EventsModel.applyCoalesce p e) := by
  have he : e.id = i := by
    simpa using List.find?_some hf
  unfold EventsModel.findById at hf ⊢
  dsimp only
  rw [List.find?_map]
  have hfun : ((fun x : EventRow => x.id == i) ∘ (fun x =>
      if x.id == i && x.user_id == u then EventsModel.applyCoalesce p x else x)) =
      (fun x : EventRow => x.id == i) := by
    funext x
    simp only [Function.comp_apply]
    congr 1
    split <;> rfl
  rw [hfun, hf]
  simp [he, ho]

/-- Counterexample to C8 as stated: in a state whose event 1 (owner 1) has
description "old", an update request by the owner that provides the
description field explicitly as `null` (validated, sanitized value: null)
succeeds — yet the stored description remains "old" instead of being set to
the provided value, because the `null` bind parameter makes `COALESCE` keep
the stored column. -/
theorem update_provided_null_description_retained_cex :
    (EventsController.updateEvent ⟨[], [⟨1, "Party", some "old", none, 100, none, 1, 0⟩], [], 2, 0⟩
        1 1 50 ⟨.missing, .nullv, .missing, .absent⟩).1 =
      .ok (some ⟨1, "Party", some "old", none, 100, none, 1, 0⟩) ∧
    EventsController.updDescStep .nullv = ([], some none) ∧
    (EventsController.updateEvent ⟨[], [⟨1, "Party", some "old", none, 100, none, 1, 0⟩], [], 2, 0⟩
        1 1 50 ⟨.missing, .nullv, .missing, .absent⟩).2.events =
      [⟨1, "Party", some "old", none, 100, none, 1, 0⟩] := by
  refine ⟨?_, rfl, ?_⟩ <;> decide

/-- C8 (amended): a successful partial update applies exactly the provided
fields whose coerced bind parameter is non-NULL and returns the refreshed
row: a provided title or date is set to its validated, sanitized value; a
provided description or address is set when its sanitized value is a
non-empty string, while `null`, the empty string, or a string sanitizing to
empty leave the prior stored value in place (merge-on-null-coalesce); absent
fields retain prior values; id, owning user and creation timestamp are
unchanged. -/
theorem update_partial_merge_spec (st : DB) (eventId userId : Nat) (now : Int)
    (inp : EventsController.UpdateInput) (e : EventRow) (p : EventsModel.UpdatePayload)
    (hf : EventsModel.findById st eventId = some e)
    (ho : e.user_id = userId)
    (hv1 : (EventsController.updTitleStep inp.title).1 = [])
    (hv2 : (EventsController.updDescStep inp.description).1 = [])
    (hv3 : (EventsController.updAddrStep inp.address).1 = [])
    (hv4 : (EventsController.updDateStep now inp.date).1 = [])
    (hp : p = EventsController.toPayload
      ⟨(EventsController.updTitleStep inp.title).2,
        (EventsController.updDescStep inp.description).2,
        (EventsController.updAddrStep inp.address).2,
        (EventsController.updDateStep now inp.date).2⟩) :
    EventsController.updateEvent st eventId userId now inp =
      (.ok (some (EventsModel.applyCoalesce p e)),
        { st with events := st.events.map (fun x =>
            if x.id == eventId && x.user_id == userId then
              EventsModel.applyCoalesce p x else x) }) ∧
    (EventsModel.applyCoalesce p e).id = e.id ∧
    (EventsModel.applyCoalesce p e).user_id = e.user_id ∧
    (EventsModel.applyCoalesce p e).created_at = e.created_at ∧
    (∀ v, p.title = some v → (EventsModel.applyCoalesce p e).title = v) ∧
    (p.title = none → (EventsModel.applyCoalesce p e).title = e.title) ∧
    (∀ v, p.description = some v → (EventsModel.applyCoalesce p e).description = some v) ∧
    (p.description = none → (EventsModel.applyCoalesce p e).description = e.description) ∧
    (∀ v, p.address = some v → (EventsModel.applyCoalesce p e).address = some v) ∧
    (p.address = none → (EventsModel.applyCoalesce p e).address = e.address) ∧
    (∀ v, p.date = some v → (EventsModel.applyCoalesce p e).date = v) ∧
    (p.date = none → (EventsModel.applyCoalesce p e).date = e.date) ∧
    (inp.title = .missing → p.title = none) ∧
    (∀ s, inp.title = .str s → p.title = some (sanitizeStr s)) ∧
    (inp.description = .missing → p.description = none) ∧
    (inp.description = .nullv → p.description = none) ∧
    (∀ s, inp.description = .str s → sanitizeStr s = "" → p.description = none) ∧
    (∀ s, inp.description = .str s → sanitizeStr s ≠ "" →
      p.description = some (sanitizeStr s)) ∧
    (inp.address = .missing → p.address = none) ∧
    (inp.address = .nullv → p.address = none) ∧
    (∀ s, inp.address = .str s → sanitizeStr s = "" → p.address = none) ∧
    (∀ s, inp.address = .str s → sanitizeStr s ≠ "" → p.address = some (sanitizeStr s)) ∧
    (inp.date = .absent → p.date = none) ∧
    (∀ t, inp.date = .provided (some t) → p.date = some t) := by
  have hchanges := countP_owner_ne_zero st eventId userId e hf ho
  have hfind := findById_after_update st eventId userId p e hf ho
  refine ⟨?_, rfl, rfl, rfl, ?_, ?_, ?_, ?_, ?_, ?_, ?_, ?_, ?_, ?_, ?_, ?_, ?_, ?_, ?_,
    ?_, ?_, ?_, ?_, ?_⟩
  · unfold EventsController.updateEvent
    dsimp only
    rw [hv1, hv2, hv3, hv4]
    rw [← hp]
    unfold EventsModel.updateEvent EventsModel.runUpdateStmt
    dsimp only
    simp only [hf, ho, List.isEmpty_nil, if_true, bne_self_eq_false, Bool.false_eq_true,
      if_false, beq_iff_eq, hchanges, hfind]
    simp
  · intro v hv
    simp [EventsModel.applyCoalesce, hv]
  · intro hv
    simp [EventsModel.applyCoalesce, hv]
  · intro v hv
    simp [EventsModel.applyCoalesce, hv]
  · intro hv
    simp [EventsModel.applyCoalesce, hv]
  · intro v hv
    simp [EventsModel.applyCoalesce, hv]
  · intro hv
    simp [EventsModel.applyCoalesce, hv]
  · intro v hv
    simp [EventsModel.applyCoalesce, hv]
  · intro hv
    simp [EventsModel.applyCoalesce, hv]
  · intro h
    subst hp
    simp [EventsController.toPayload, EventsController.updTitleStep, h]
  · intro s h
    rw [h] at hv1
    have h3 : ¬ (sanitizeStr s).length < 3 := by
      intro hc
      simp [EventsController.updTitleStep, hc] at hv1
    have h100 : ¬ (sanitizeStr s).length > 100 := by
      intro hc
      simp [EventsController.updTitleStep, hc, h3] at hv1
    have hne : (sanitizeStr s == "") = false := by
      simp only [beq_eq_false_iff_ne, ne_eq]
      intro hc
      rw [hc] at h3
      simp at h3
    subst hp
    simp [EventsController.toPayload, EventsController.updTitleStep, h, h3, h100, hne]
    simpa using hne
  · intro h
    subst hp
    simp [EventsController.toPayload, EventsController.updDescStep, h]
  · intro h
    subst hp
    simp [EventsController.toPayload, EventsController.updDescStep, h]
  · intro s h hs
    subst hp
    by_cases h0 : s = ""
    · simp [EventsController.toPayload, EventsController.updDescStep, h, h0]
    · rw [h] at hv2
      have hlim : ¬ (sanitizeStr s).length > 500 := by
        intro hc
        simp [EventsController.updDescStep, h0, hc] at hv2
      simp [EventsController.toPayload, EventsController.updDescStep, h, h0, hlim, hs]
  · intro s h hs
    subst hp
    have h0 : s ≠ "" := by
      intro hc
      rw [hc] at hs
      exact hs rfl
    rw [h] at hv2
    have hlim : ¬ (sanitizeStr s).length > 500 := by
      intro hc
      simp [EventsController.updDescStep, h0, hc] at hv2
    simp [EventsController.toPayload, EventsController.updDescStep, h, h0, hlim, hs]
  · intro h
    subst hp
    simp [EventsController.toPayload, EventsController.updAddrStep, h]
  · intro h
    subst hp
    simp [EventsController.toPayload, EventsController.updAddrStep, h]
  · intro s h hs
    subst hp
    by_cases h0 : s = ""
    · simp [EventsController.toPayload, EventsController.updAddrStep, h, h0]
    · rw [h] at hv3
      have hlim : ¬ (sanitizeStr s).length > 200 := by
        intro hc
        simp [EventsController.updAddrStep, h0, hc] at hv3
      simp [EventsController.toPayload, EventsController.updAddrStep, h, h0, hlim, hs]
  · intro s h hs
    subst hp
    have h0 : s ≠ "" := by
      intro hc
      rw [hc] at hs
      exact hs rfl
    rw [h] at hv3
    have hlim : ¬ (sanitizeStr s).length > 200 := by
      intro hc
      simp [EventsController.updAddrStep, h0, hc] at hv3
    simp [EventsController.toPayload, EventsController.updAddrStep, h, h0, hlim, hs]
  · intro h
    subst hp
    simp [EventsController.toPayload, EventsController.updDateStep, h]
  · intro t h
    rw [h] at hv4
    have hfut : ¬ t ≤ now := by
      intro hc
      simp [EventsController.updDateStep, hc] at hv4
    subst hp
    simp [EventsController.toPayload, EventsController.updDateStep, h, hfut]

/-- Witness for C8 (amended): the owner updates title and date only; title is
sanitized and set, date set, description/address/id/owner/created_at
retained, and the refreshed row is returned. -/
theorem update_partial_merge_spec_witness :
    EventsController.updateEvent ⟨[], [⟨1, "Old Title", some "d", none, 100, none, 3, 9⟩], [], 2, 0⟩
        1 3 50 ⟨.str "  New  Title ", .missing, .missing, .provided (some 200)⟩ =
      (.ok (some ⟨1, "New Title", some "d", none, 200, none, 3, 9⟩),
        ⟨[], [⟨1, "New Title", some "d", none, 200, none, 3, 9⟩], [], 2, 0⟩) :=
  (update_partial_merge_spec ⟨[], [⟨1, "Old Title", some "d", none, 100, none, 3, 9⟩], [], 2, 0⟩
      1 3 50 ⟨.str "  New  Title ", .missing, .missing, .provided (some 200)⟩
      ⟨1, "Old Title", some "d", none, 100, none, 3, 9⟩
      (EventsController.toPayload
        ⟨(EventsController.updTitleStep (.str "  New  Title ")).2,
          (EventsController.updDescStep .missing).2,
          (EventsController.updAddrStep .missing).2,
          (EventsController.updDateStep 50 (.provided (some 200))).2⟩)
      (by decide) rfl (by decide) rfl rfl (by decide) rfl).1

/-- C10: every row of the list-my-registrations response has
`registration_id` equal to the nested event id, which is the id of an event
of the store (the `e.*` projection puts the event id in the `id` column); and
the response is invariant under arbitrary renumbering of the registration
rows' own primary keys, so the registration primary key is never returned. -/
theorem registration_id_is_event_id (st : DB) (userId : Nat) :
    (∀ v ∈ EventsController.getUserRegistrations st userId,
      v.registration_id = v.event_id ∧
      ∃ e ∈ st.events, v.registration_id = e.id ∧
        ∃ r ∈ st.regs, r.user_id = userId ∧ r.event_id = e.id ∧
          v.registered_at = r.registered_at) ∧
    (∀ f : Nat → Nat,
      EventsController.getUserRegistrations
          { st with regs := st.regs.map (fun r => { r with id := f r.id }) } userId =
        EventsController.getUserRegistrations st userId) := by
  constructor
  · intro v hv
    unfold EventsController.getUserRegistrations at hv
    rw [List.mem_map] at hv
    obtain ⟨row, hrow, hveq⟩ := hv
    unfold EventsModel.getUserRegistrations at hrow
    rw [List.mem_filterMap] at hrow
    obtain ⟨r, hrf, hbind⟩ := hrow
    rw [List.mem_filter] at hrf
    obtain ⟨hrmem, hruser⟩ := hrf
    cases hfind : EventsModel.findById st r.event_id with
    | none => rw [hfind] at hbind; cases hbind
    | some e =>
      rw [hfind] at hbind
      simp only [Option.some_bind] at hbind
      cases hu : st.users.find? (fun u => u.id == e.user_id) with
      | none => rw [hu] at hbind; cases hbind
      | some u =>
        rw [hu] at hbind
        simp only [Option.map_some'] at hbind
        obtain ⟨hemem, heid⟩ := findById_mem st r.event_id e hfind
        subst hveq
        cases hbind
        refine ⟨rfl, e, hemem, rfl, r, hrmem, by simpa using hruser, heid.symm, rfl⟩
  · intro f
    unfold EventsController.getUserRegistrations EventsModel.getUserRegistrations
    dsimp only
    rw [List.filter_map, List.filterMap_map]
    rfl

/-- Witness for C10: with one registration (primary key 77) of user 2 for
event 1, the response row carries `registration_id = 1` (the event id), not
77. -/
theorem registration_id_is_event_id_witness :
    ⟨1, 5, 1, "Party", none, none, 50, "a@x", "A"⟩ ∈
      EventsController.getUserRegistrations
        ⟨[⟨9, "a@x", "A"⟩], [⟨1, "Party", none, none, 50, none, 9, 0⟩], [⟨77, 1, 2, 5⟩], 2, 78⟩ 2 ∧
    (⟨1, 5, 1, "Party", none, none, 50, "a@x", "A"⟩ :
        EventsController.RegistrationView).registration_id =
      (⟨1, 5, 1, "Party", none, none, 50, "a@x", "A"⟩ :
        EventsController.RegistrationView).event_id :=
  ⟨by decide,
    ((registration_id_is_event_id
        ⟨[⟨9, "a@x", "A"⟩], [⟨1, "Party", none, none, 50, none, 9, 0⟩], [⟨77, 1, 2, 5⟩], 2, 78⟩ 2).1
      ⟨1, 5, 1, "Party", none, none, 50, "a@x", "A"⟩ (by decide)).1⟩

theorem guardedUpdate_id (p : EventsModel.UpdatePayload) (i u : Nat) (x : EventRow) :
    (if x.id == i && x.user_id == u then EventsModel.applyCoalesce p x else x).id = x.id := by
  split <;> rfl

theorem guardedUpdate_user_id (p : EventsModel.UpdatePayload) (i u : Nat) (x : EventRow) :
    (if x.id == i && x.user_id == u then
      EventsModel.applyCoalesce p x else x).user_id = x.user_id := by
  split <;> rfl

theorem stateInv_mapUpdate (st : DB) (p : EventsModel.UpdatePayload) (i u : Nat)
    (h : StateInv st) :
    StateInv { st with events := st.events.map (fun x =>
      if x.id == i && x.user_id == u then EventsModel.applyCoalesce p x else x) } := by
  obtain ⟨hn, hb, hfk, hns⟩ := h
  refine ⟨?_, ?_, ?_, ?_⟩
  · show ((st.events.map _).map EventRow.id).Nodup
    rw [List.map_map]
    have hcomp : (EventRow.id ∘ fun x => if x.id == i && x.user_id == u then
        EventsModel.applyCoalesce p x else x) = EventRow.id := by
      funext x
      exact guardedUpdate_id p i u x
    rw [hcomp]
    exact hn
  · intro e he
    rw [List.mem_map] at he
    obtain ⟨x, hx, rfl⟩ := he
    rw [guardedUpdate_id]
    exact hb x hx
  · intro r hr
    obtain ⟨e, he, hide⟩ := hfk r hr
    exact ⟨_, List.mem_map_of_mem _ he, by rw [guardedUpdate_id]; exact hide⟩
  · intro r hr e' he' hide
    rw [List.mem_map] at he'
    obtain ⟨x, hx, rfl⟩ := he'
    rw [guardedUpdate_user_id]
    rw [guardedUpdate_id] at hide
    exact hns r hr x hx hide

theorem stateInv_create (st : DB) (title : String) (d a : Option String) (date : Int)
    (userId : Nat) (now : Int) (h : StateInv st) :
    StateInv (EventsModel.createEvent st title d a date userId now).1 := by
  obtain ⟨hn, hb, hfk, hns⟩ := h
  unfold EventsModel.createEvent
  dsimp only
  refine ⟨?_, ?_, ?_, ?_⟩
  · rw [List.map_append, List.nodup_append]
    refine ⟨hn, by simp, ?_⟩
    intro x hx hx2
    rw [List.mem_map] at hx
    obtain ⟨e, he, rfl⟩ := hx
    simp only [List.map_cons, List.map_nil, List.mem_singleton] at hx2
    have := hb e he
    omega
  · intro e he
    dsimp only at he ⊢
    rw [List.mem_append] at he
    rcases he with he | he
    · have := hb e he
      omega
    · simp only [List.mem_singleton] at he
      subst he
      simp
  · intro r hr
    obtain ⟨e, he, hide⟩ := hfk r hr
    exact ⟨e, List.mem_append_left _ he, hide⟩
  · intro r hr e' he' hide
    rw [List.mem_append] at he'
    rcases he' with he' | he'
    · exact hns r hr e' he' hide
    · simp only [List.mem_singleton] at he'
      subst he'
      obtain ⟨e0, he0, hide0⟩ := hfk r hr
      have := hb e0 he0
      exfalso
      rw [hide0] at this
      simp only at hide
      omega

theorem stateInv_update (st : DB) (i userId : Nat) (p : EventsModel.UpdatePayload)
    (h : StateInv st) : StateInv (EventsModel.updateEvent st i userId p).2 := by
  unfold EventsModel.updateEvent EventsModel.runUpdateStmt
  dsimp only
  split
  · exact h
  · split
    · exact h
    · split
      · exact stateInv_mapUpdate st p i userId h
      · exact stateInv_mapUpdate st p i userId h

theorem stateInv_delete (st : DB) (i userId : Nat) (h : StateInv st) :
    StateInv (EventsModel.deleteEvent st i userId).2 := by
  obtain ⟨hn, hb, hfk, hns⟩ := h
  unfold EventsModel.deleteEvent EventsModel.runDeleteStmt
  dsimp only
  have hsub : ((st.events.filter
      (fun e => !(e.id == i && e.user_id == userId))).map EventRow.id).Nodup :=
    List.Nodup.sublist ((List.filter_sublist st.events).map EventRow.id) hn
  split
  · exact ⟨hn, hb, hfk, hns⟩
  · split
    · exact ⟨hn, hb, hfk, hns⟩
    · have hcore : ∀ regs' : List RegRow,
        (∀ r ∈ regs', r ∈ st.regs) →
        (∀ r ∈ regs', ∃ e ∈ st.events.filter
          (fun e => !(e.id == i && e.user_id == userId)), e.id = r.event_id) →
        StateInv { st with
          events := st.events.filter (fun e => !(e.id == i && e.user_id == userId))
          regs := regs' } := by
        intro regs' hrsub hrfk
        refine ⟨hsub, ?_, hrfk, ?_⟩
        · intro e he
          exact hb e (List.mem_of_mem_filter he)
        · intro r hr e' he' hide
          exact hns r (hrsub r hr) e' (List.mem_of_mem_filter he') hide
      split
      · -- changes = 0: no event row matched, the filter removes nothing
        rename_i hch
        have hz : st.events.countP (fun e => e.id == i && e.user_id == userId) = 0 := by
          simpa using hch
        rw [List.countP_eq_zero] at hz
        exact hcore st.regs (fun r hr => hr) (fun r hr => by
          obtain ⟨e, he, hide⟩ := hfk r hr
          exact ⟨e, List.mem_filter.mpr ⟨he, by simp [hz e he]⟩, hide⟩)
      · -- changes ≠ 0: registrations of the deleted event id are cascaded away
        rename_i hch
        exact hcore (st.regs.filter (fun r => !(r.event_id == i)))
          (fun r hr => List.mem_of_mem_filter hr)
          (fun r hr => by
            have hrne : r.event_id ≠ i := by
              have := (List.mem_filter.mp hr).2
              simpa using this
            obtain ⟨e, he, hide⟩ := hfk r (List.mem_of_mem_filter hr)
            refine ⟨e, List.mem_filter.mpr ⟨he, ?_⟩, hide⟩
            simp only [Bool.not_eq_eq_eq_not, Bool.not_true, Bool.and_eq_false_imp]
            intro hc
            rw [beq_iff_eq] at hc
            rw [← hide] at hrne
            exact absurd hc hrne)

theorem stateInv_register (st : DB) (eventId userId : Nat) (now : Int)
    (h : StateInv st) : StateInv (EventsModel.registerForEvent st eventId userId now).2 := by
  obtain ⟨hn, hb, hfk, hns⟩ := h
  unfold EventsModel.registerForEvent
  dsimp only
  split
  · exact ⟨hn, hb, hfk, hns⟩
  · rename_i ev hf
    split
    · exact ⟨hn, hb, hfk, hns⟩
    · rename_i hown
      split
      · exact ⟨hn, hb, hfk, hns⟩
      · split
        · exact ⟨hn, hb, hfk, hns⟩
        · obtain ⟨hevm, hevid⟩ := findById_mem st eventId ev hf
          refine ⟨hn, hb, ?_, ?_⟩
          · intro r hr
            rw [List.mem_append] at hr
            rcases hr with hr | hr
            · exact hfk r hr
            · simp only [List.mem_singleton] at hr
              subst hr
              exact ⟨ev, hevm, hevid⟩
          · intro r hr e' he' hide
            rw [List.mem_append] at hr
            rcases hr with hr | hr
            · exact hns r hr e' he' hide
            · simp only [List.mem_singleton] at hr
              subst hr
              simp only at hide
              have : e' = ev := List.inj_on_of_nodup_map hn he' hevm (by rw [hide, hevid])
              subst this
              simp only
              intro hc
              rw [hc] at hown
              simp at hown

theorem stateInv_unregister (st : DB) (eventId userId : Nat) (h : StateInv st) :
    StateInv (EventsModel.unregisterFromEvent st eventId userId).2 := by
  obtain ⟨hn, hb, hfk, hns⟩ := h
  unfold EventsModel.unregisterFromEvent
  dsimp only
  split
  · exact ⟨hn, hb, hfk, hns⟩
  · split
    · exact ⟨hn, hb, hfk, hns⟩
    · have hcore : StateInv { st with
          regs := st.regs.filter (fun r => !(r.event_id == eventId && r.user_id == userId)) } := by
        refine ⟨hn, hb, ?_, ?_⟩
        · intro r hr
          exact hfk r (List.mem_of_mem_filter hr)
        · intro r hr e' he' hide
          exact hns r (List.mem_of_mem_filter hr) e' he' hide
      split
      · exact hcore
      · exact hcore

theorem reachable_stateInv (st : DB) (h : Reachable st) : StateInv st := by
  induction h with
  | start users =>
    refine ⟨by simp, ?_, ?_, ?_⟩ <;> intro r hr <;> simp at hr
  | addUser st u _ ih => exact ih
  | create st title d a date userId now _ ih => exact stateInv_create st title d a date userId now ih
  | update st i userId p _ ih => exact stateInv_update st i userId p ih
  | delete st i userId _ ih => exact stateInv_delete st i userId ih
  | register st eventId userId now _ ih => exact stateInv_register st eventId userId now ih
  | unregister st eventId userId _ ih => exact stateInv_unregister st eventId userId ih

/-- C4: in every reachable database state, no registration row's registering
user equals the owning user of its event; an owner's own registration attempt
always yields `SELF_REGISTRATION`; and the update operation never reassigns
an event's owning user (every row of the post-update events table keeps the
id and owner of a pre-update row). -/
theorem no_self_registration_invariant (st : DB) (h : Reachable st) :
    (∀ r ∈ st.regs, ∀ e ∈ st.events, e.id = r.event_id → r.user_id ≠ e.user_id) ∧
    (∀ (eventId userId : Nat) (now : Int) (e : EventRow),
      EventsModel.findById st eventId = some e → e.user_id = userId →
      (EventsModel.registerForEvent st eventId userId now).1 = .err .SELF_REGISTRATION) ∧
    (∀ (i userId : Nat) (p : EventsModel.UpdatePayload),
      ∀ e' ∈ (EventsModel.updateEvent st i userId p).2.events,
      ∃ e ∈ st.events, e'.id = e.id ∧ e'.user_id = e.user_id) := by
  obtain ⟨hn, hb, hfk, hns⟩ := reachable_stateInv st h
  refine ⟨?_, ?_, ?_⟩
  · intro r hr e he hide
    exact (hns r hr e he hide).symm
  · intro eventId userId now e hf ho
    simp [EventsModel.registerForEvent, hf, ho]
  · intro i userId p e' he'
    unfold EventsModel.updateEvent EventsModel.runUpdateStmt at he'
    dsimp only at he'
    revert he'
    split
    · intro he'
      exact ⟨e', he', rfl, rfl⟩
    · split
      · intro he'
        exact ⟨e', he', rfl, rfl⟩
      · split
        · intro he'
          dsimp only at he'
          rw [List.mem_map] at he'
          obtain ⟨x, hx, rfl⟩ := he'
          exact ⟨x, hx, guardedUpdate_id p i userId x, guardedUpdate_user_id p i userId x⟩
        · intro he'
          dsimp only at he'
          rw [List.mem_map] at he'
          obtain ⟨x, hx, rfl⟩ := he'
          exact ⟨x, hx, guardedUpdate_id p i userId x, guardedUpdate_user_id p i userId x⟩

/-- Witness for C4: after creating an event (owner 1) in an initially empty
store, the owner's registration attempt for it yields `SELF_REGISTRATION`. -/
theorem no_self_registration_invariant_witness :
    (EventsModel.registerForEvent
        (EventsModel.createEvent ⟨[], [], [], 0, 0⟩ "Party" none none 5 1 0).1 0 1 10).1 =
      .err .SELF_REGISTRATION :=
  (no_self_registration_invariant
      (EventsModel.createEvent ⟨[], [], [], 0, 0⟩ "Party" none none 5 1 0).1
      (Reachable.create ⟨[], [], [], 0, 0⟩ "Party" none none 5 1 0
        (Reachable.start []))).2.1
    0 1 10 ⟨0, "Party", none, none, 5, none, 1, 0⟩ (by decide) rfl
